import Mathlib

/-!
Verification of the hprof_dump_parser streaming HPROF parser.

The development is a shallow embedding of the crate's source files
(`decl.rs`, `records.rs`, `stream.rs`, `reader.rs`, `try_byteorder.rs`)
over a pure byte-stream model: a stream is a list of bytes, reads
consume a prefix and return the advanced stream, and fallible reads
return `Except Error`.  Machine integers are modelled as `Nat`; signed
and floating-point scalars are carried as their big-endian bit
patterns, which is faithful for every property proved here (none
inspects signed or float semantics).
-/

namespace Hprof

/-- A byte stream: the list of bytes remaining to be read.  Bytes are
`Nat`s; genuine inputs have entries `< 256` but none of the statements
below needs that bound. -/
abbrev Bytes := List Nat

/-- Identifiers are widened to a uniform integer (`Id(usize)` in
`decl.rs`, converted from u32/u64 reads). -/
abbrev Id := Nat

/-- The only `std::io` error kind produced by reads over a bounded pure
byte source: `UnexpectedEof` from a short `read_exact`. -/
inductive IOErrorKind where
  | unexpectedEof
  deriving DecidableEq, Repr

/-- `decl.rs` `enum Error`.  `UnderlyingIOError` wraps the I/O error
kind; string payloads are kept verbatim from the source. -/
inductive Error where
  | idSizeNotSupported (size : Nat)
  | integerConversionError
  | invalidHeader (msg : String)
  | invalidField (msg : String)
  | invalidUtf8
  | invalidPacket (tag : Nat) (size : Nat)
  | unknownPacket (tag : Nat) (size : Nat)
  | invalidSubpacket (tag : Nat) (size : Nat)
  | unknownSubpacket (tag : Nat)
  | unknownClass (id : Id)
  | prematureEOF
  | underlyingIOError (kind : IOErrorKind)
  deriving DecidableEq, Repr

/-- `records.rs` `enum ByteOrder`.  `Native` is the host order; the
development models the (little-endian) hosts the crate targets. -/
inductive ByteOrder where
  | native
  | network
  deriving DecidableEq, Repr

/-- `records.rs` `struct IdReader`: configured id width and byte order. -/
structure IdReader where
  id_size : Nat
  order : ByteOrder
  deriving DecidableEq, Repr

/-- `read_exact` of `n` bytes: succeeds returning the prefix and the
advanced stream, or fails with the `UnexpectedEof` I/O error. -/
def readN (n : Nat) (s : Bytes) : Except Error (Bytes × Bytes) :=
  if n ≤ s.length then .ok (s.take n, s.drop n)
  else .error (.underlyingIOError .unexpectedEof)

/-- Big-endian (network order) value of a byte list. -/
def beVal (l : Bytes) : Nat := l.foldl (fun acc b => acc * 256 + b) 0

/-- Little-endian value of a byte list (the `NativeEndian` of the
little-endian hosts the crate targets). -/
def leVal (l : Bytes) : Nat := beVal l.reverse

/-- `read_u8`. -/
def readU8 (s : Bytes) : Except Error (Nat × Bytes) :=
  (readN 1 s).map fun p => (beVal p.1, p.2)

/-- `read_u16::<NetworkEndian>`. -/
def readU16 (s : Bytes) : Except Error (Nat × Bytes) :=
  (readN 2 s).map fun p => (beVal p.1, p.2)

/-- `read_u32::<NetworkEndian>`. -/
def readU32 (s : Bytes) : Except Error (Nat × Bytes) :=
  (readN 4 s).map fun p => (beVal p.1, p.2)

/-- `read_u64::<NetworkEndian>`. -/
def readU64 (s : Bytes) : Except Error (Nat × Bytes) :=
  (readN 8 s).map fun p => (beVal p.1, p.2)

/-- A fixed-width scalar read of `k` bytes returning the big-endian bit
pattern (used for i8/i16/i32/i64/f32/f64 payloads, whose values the
parser stores but never interprets). -/
def readScalarBE (k : Nat) (s : Bytes) : Except Error (Nat × Bytes) :=
  (readN k s).map fun p => (beVal p.1, p.2)

/-- `IdReader::read_id` (`records.rs` lines 27-44): dispatch on the
configured id size, reading 4 or 8 bytes in the configured order; any
other size fails with `InvalidHeader("Id size not supported")`. -/
def IdReader.read_id (r : IdReader) (s : Bytes) : Except Error (Id × Bytes) :=
  if r.id_size = 4 then
    match r.order with
    | .native => (readN 4 s).map fun p => (leVal p.1, p.2)
    | .network => (readN 4 s).map fun p => (beVal p.1, p.2)
  else if r.id_size = 8 then
    match r.order with
    | .native => (readN 8 s).map fun p => (leVal p.1, p.2)
    | .network => (readN 8 s).map fun p => (beVal p.1, p.2)
  else .error (.invalidHeader "Id size not supported")

/-- `try_byteorder.rs` `try_read_exact`: `none` exactly when the first
underlying read returns zero bytes (empty buffer requested, or the
source is at end of stream); a short read that began successfully fails
with the `UnexpectedEof` I/O error. -/
def tryReadExact (n : Nat) (s : Bytes) : Option (Except Error (Bytes × Bytes)) :=
  if n = 0 ∨ s.isEmpty then none
  else if n ≤ s.length then some (.ok (s.take n, s.drop n))
  else some (.error (.underlyingIOError .unexpectedEof))

/-- `try_read_u8`. -/
def tryReadU8 (s : Bytes) : Option (Except Error (Nat × Bytes)) :=
  (tryReadExact 1 s).map (·.map fun p => (beVal p.1, p.2))

/-- `try_read_u16::<NetworkEndian>`. -/
def tryReadU16 (s : Bytes) : Option (Except Error (Nat × Bytes)) :=
  (tryReadExact 2 s).map (·.map fun p => (beVal p.1, p.2))

/-- `decl.rs` `enum FieldType` with its wire codes 2,4,5,6,7,8,9,10,11. -/
inductive FieldType where
  | object
  | bool
  | char
  | float
  | double
  | byte
  | short
  | int
  | long
  deriving DecidableEq, Repr

/-- `FieldType::try_from` on the wire byte (`TryFromPrimitive`). -/
def FieldType.tryFrom (b : Nat) : Option FieldType :=
  if b = 2 then some .object
  else if b = 4 then some .bool
  else if b = 5 then some .char
  else if b = 6 then some .float
  else if b = 7 then some .double
  else if b = 8 then some .byte
  else if b = 9 then some .short
  else if b = 10 then some .int
  else if b = 11 then some .long
  else none

/-- `FieldType::byte_size` (`decl.rs`): storage size of a primitive
scalar; `Object` has none and errors. -/
def FieldType.byte_size : FieldType → Except Error Nat
  | .object => .error (.invalidField "object type in primitive array")
  | .byte | .bool => .ok 1
  | .char | .short => .ok 2
  | .float | .int => .ok 4
  | .double | .long => .ok 8

/-- `decl.rs` `enum FieldValue`; non-`Nat`-natural scalars carry their
big-endian bit patterns. -/
inductive FieldValue where
  | bool (b : Bool)
  | byte (bits : Nat)
  | char (v : Nat)
  | short (bits : Nat)
  | int (bits : Nat)
  | long (bits : Nat)
  | float (bits : Nat)
  | double (bits : Nat)
  | object (id : Id)
  deriving DecidableEq, Repr

/-- `decl.rs` `enum ArrayValue`; element scalars as bit patterns. -/
inductive ArrayValue where
  | bool (v : List Bool)
  | byte (v : List Nat)
  | char (v : List Nat)
  | short (v : List Nat)
  | int (v : List Nat)
  | long (v : List Nat)
  | float (v : List Nat)
  | double (v : List Nat)
  | object (v : List Id)
  deriving DecidableEq, Repr

/-- `decl.rs` `struct ConstFieldInfo`. -/
structure ConstFieldInfo where
  const_pool_idx : Nat
  const_type : FieldType
  deriving DecidableEq, Repr

/-- `decl.rs` `struct FieldInfo`. -/
structure FieldInfo where
  name_id : Id
  field_type : FieldType
  deriving DecidableEq, Repr

/-- `decl.rs` `struct ClassDescription`. -/
structure ClassDescription where
  class_id : Id
  stack_trace_serial : Nat
  super_class_object_id : Id
  class_loader_object_id : Id
  signers_object_id : Id
  protection_domain_object_id : Id
  reserved1 : Id
  reserved2 : Id
  instance_size : Nat
  const_fields : List (ConstFieldInfo × FieldValue)
  static_fields : List (FieldInfo × FieldValue)
  instance_fields : List FieldInfo
  deriving DecidableEq, Repr

/-- `decl.rs` `struct InstanceDump` (produced by
`records.rs::read_data_21_instance_dump`). -/
structure InstanceDump where
  object_id : Id
  stack_trace_serial : Nat
  class_object_id : Id
  data_size : Nat
  values : List (FieldInfo × FieldValue)
  deriving DecidableEq, Repr

/-- `decl.rs` `struct ClassRecord` (LoadClass payload). -/
structure ClassRecord where
  serial : Nat
  class_obj_id : Id
  stack_trace_serial : Nat
  class_name_string_id : Id
  deriving DecidableEq, Repr

/-- `decl.rs` `struct StackFrameRecord`; `line_number` is the i32 bit
pattern. -/
structure StackFrameRecord where
  stack_frame_id : Id
  method_name_id : Id
  method_signature_id : Id
  source_file_name_id : Id
  class_serial : Nat
  line_number : Nat
  deriving DecidableEq, Repr

/-- `decl.rs` `struct StackTraceRecord`. -/
structure StackTraceRecord where
  stack_trace_serial : Nat
  thread_serial : Nat
  stack_frame_ids : List Id
  deriving DecidableEq, Repr

/-- `decl.rs` `struct AllocSite`. -/
structure AllocSite where
  is_array : Nat
  class_serial : Nat
  stack_trace_serial : Nat
  bytes_alive : Nat
  instances_alive : Nat
  bytes_allocated : Nat
  instances_allocated : Nat
  deriving DecidableEq, Repr

/-- `decl.rs` `struct AllocSitesRecord`. -/
structure AllocSitesRecord where
  flags : Nat
  cutoff_ratio : Nat
  total_live_bytes : Nat
  total_live_instances : Nat
  total_bytes_allocated : Nat
  total_instances_allocated : Nat
  sites : List AllocSite
  deriving DecidableEq, Repr

/-- `decl.rs` `struct HeapSummaryRecord`. -/
structure HeapSummaryRecord where
  total_live_bytes : Nat
  total_live_instances : Nat
  total_bytes_allocated : Nat
  total_instances_allocated : Nat
  deriving DecidableEq, Repr

/-- `decl.rs` `struct StartThreadRecord`. -/
structure StartThreadRecord where
  thread_serial : Nat
  thead_object_id : Id
  stack_trace_serial : Nat
  thread_name_id : Id
  thread_group_name_id : Id
  thread_group_parent_name_id : Id
  deriving DecidableEq, Repr

/-- `decl.rs` `struct EndThreadRecord`. -/
structure EndThreadRecord where
  thread_serial : Nat
  deriving DecidableEq, Repr

/-- The dump-segment subrecord union as constructed by
`stream.rs::read_data_record` (tuple-style variants; `InstanceDump`
carries the `(object id, class id, field info, value)` rows produced by
`stream.rs::read_object`). -/
inductive DumpRecord where
  | rootUnknown (obj_id : Id)
  | rootJniGlobal (obj_id : Id) (jni_global_ref : Id)
  | rootJniLocal (obj_id : Id) (thread_serial : Nat) (frame_number : Nat)
  | rootJavaFrame (obj_id : Id) (thread_serial : Nat) (frame_number : Nat)
  | rootNativeStack (obj_id : Id) (thread_serial : Nat)
  | rootStickyClass (obj_id : Id)
  | rootThreadBlock (obj_id : Id) (thread_serial : Nat)
  | rootMonitorUsed (obj_id : Id)
  | rootThreadObject (obj_id : Id) (thread_serial : Nat) (stack_trace_serial : Nat)
  | classDump (c : ClassDescription)
  | instanceDump (fields : List (Id × Id × FieldInfo × FieldValue))
  | objectArrayDump (obj_id : Id) (class_id : Id) (values : Option (List Id))
  | primitiveArrayDump (obj_id : Id) (values : Option ArrayValue)
  deriving DecidableEq, Repr

/-- The top-level record union as constructed by
`stream.rs::read_record`: every variant carries the record's absolute
timestamp as its first component. -/
inductive Record where
  | string (ts : Nat) (id : Id) (data : Bytes)
  | loadClass (ts : Nat) (c : ClassRecord)
  | unloadClass (ts : Nat) (serial : Nat)
  | stackFrame (ts : Nat) (f : StackFrameRecord)
  | stackTrace (ts : Nat) (t : StackTraceRecord)
  | allocSites (ts : Nat) (a : AllocSitesRecord)
  | heapSummary (ts : Nat) (h : HeapSummaryRecord)
  | startThread (ts : Nat) (st : StartThreadRecord)
  | endThread (ts : Nat) (et : EndThreadRecord)
  | dump (ts : Nat) (d : DumpRecord)
  deriving DecidableEq, Repr

/-- The absolute timestamp carried by a record. -/
def Record.ts : Record → Nat
  | .string t _ _ => t
  | .loadClass t _ => t
  | .unloadClass t _ => t
  | .stackFrame t _ => t
  | .stackTrace t _ => t
  | .allocSites t _ => t
  | .heapSummary t _ => t
  | .startThread t _ => t
  | .endThread t _ => t
  | .dump t _ => t

/-! Tag constants from `decl.rs`. -/

def TAG_STRING : Nat := 0x01
def TAG_LOAD_CLASS : Nat := 0x02
def TAG_UNLOAD_CLASS : Nat := 0x03
def TAG_STACK_FRAME : Nat := 0x04
def TAG_STACK_TRACE : Nat := 0x05
def TAG_ALLOC_SITES : Nat := 0x06
def TAG_HEAP_SUMMARY : Nat := 0x07
def TAG_START_THREAD : Nat := 0x0A
def TAG_END_THREAD : Nat := 0x0B
def TAG_HEAP_DUMP : Nat := 0x0C
def TAG_HEAP_DUMP_SEGMENT : Nat := 0x1C
def TAG_HEAP_DUMP_END : Nat := 0x2C

def TAG_GC_ROOT_UNKNOWN : Nat := 0xFF
def TAG_GC_ROOT_JNI_GLOBAL : Nat := 0x01
def TAG_GC_ROOT_JNI_LOCAL : Nat := 0x02
def TAG_GC_ROOT_JAVA_FRAME : Nat := 0x03
def TAG_GC_ROOT_NATIVE_STACK : Nat := 0x04
def TAG_GC_ROOT_STICKY_CLASS : Nat := 0x05
def TAG_GC_ROOT_THREAD_BLOCK : Nat := 0x06
def TAG_GC_ROOT_MONITOR_USED : Nat := 0x07
def TAG_GC_ROOT_THREAD_OBJ : Nat := 0x08
def TAG_GC_CLASS_DUMP : Nat := 0x20
def TAG_GC_INSTANCE_DUMP : Nat := 0x21
def TAG_GC_OBJ_ARRAY_DUMP : Nat := 0x22
def TAG_GC_PRIM_ARRAY_DUMP : Nat := 0x23

/-- `read_type_value` (identical in `stream.rs` and `records.rs`): one
scalar of the given kind; `Object` goes through the id reader. -/
def readTypeValue (ty : FieldType) (idr : IdReader) (s : Bytes) :
    Except Error (FieldValue × Bytes) :=
  match ty with
  | .object => (idr.read_id s).map fun p => (.object p.1, p.2)
  | .bool => (readU8 s).map fun p => (.bool (p.1 ≠ 0), p.2)
  | .char => (readU16 s).map fun p => (.char p.1, p.2)
  | .float => (readScalarBE 4 s).map fun p => (.float p.1, p.2)
  | .double => (readScalarBE 8 s).map fun p => (.double p.1, p.2)
  | .byte => (readScalarBE 1 s).map fun p => (.byte p.1, p.2)
  | .short => (readScalarBE 2 s).map fun p => (.short p.1, p.2)
  | .int => (readScalarBE 4 s).map fun p => (.int p.1, p.2)
  | .long => (readScalarBE 8 s).map fun p => (.long p.1, p.2)

/-- `records.rs::read_01_string`: id, then `payload_size - id_size` raw
bytes (the source subtracts on `u32`; inputs keep `id_size ≤
payload_size`, and `Nat` subtraction truncates the same way past
zero is never reached on them). -/
def read_01_string (idr : IdReader) (payload_size : Nat) (s : Bytes) :
    Except Error ((Id × Bytes) × Bytes) := do
  let (id, s) ← idr.read_id s
  let (data, s) ← readN (payload_size - idr.id_size) s
  .ok ((id, data), s)

/-- `records.rs::read_02_load_class`. -/
def read_02_load_class (idr : IdReader) (s : Bytes) :
    Except Error (ClassRecord × Bytes) := do
  let (serial, s) ← readU32 s
  let (class_obj_id, s) ← idr.read_id s
  let (stack_trace_serial, s) ← readU32 s
  let (class_name_string_id, s) ← idr.read_id s
  .ok ({ serial, class_obj_id, stack_trace_serial, class_name_string_id }, s)

/-- `records.rs::read_03_unload_class`. -/
def read_03_unload_class (s : Bytes) : Except Error (Nat × Bytes) :=
  readU32 s

/-- `records.rs::read_04_frame`. -/
def read_04_frame (idr : IdReader) (s : Bytes) :
    Except Error (StackFrameRecord × Bytes) := do
  let (stack_frame_id, s) ← idr.read_id s
  let (method_name_id, s) ← idr.read_id s
  let (method_signature_id, s) ← idr.read_id s
  let (source_file_name_id, s) ← idr.read_id s
  let (class_serial, s) ← readU32 s
  let (line_number, s) ← readScalarBE 4 s
  .ok ({ stack_frame_id, method_name_id, method_signature_id,
         source_file_name_id, class_serial, line_number }, s)

/-- Reads `n` identifiers in sequence. -/
def readIdList (idr : IdReader) : Nat → Bytes → Except Error (List Id × Bytes)
  | 0, s => .ok ([], s)
  | n + 1, s => do
    let (i, s) ← idr.read_id s
    let (rest, s) ← readIdList idr n s
    .ok (i :: rest, s)

/-- `records.rs::read_05_trace`. -/
def read_05_trace (idr : IdReader) (s : Bytes) :
    Except Error (StackTraceRecord × Bytes) := do
  let (stack_trace_serial, s) ← readU32 s
  let (thread_serial, s) ← readU32 s
  let (num_frames, s) ← readU32 s
  let (stack_frame_ids, s) ← readIdList idr num_frames s
  .ok ({ stack_trace_serial, thread_serial, stack_frame_ids }, s)

/-- One `AllocSite` entry: u8 then six u32s. -/
def readAllocSite (s : Bytes) : Except Error (AllocSite × Bytes) := do
  let (is_array, s) ← readU8 s
  let (class_serial, s) ← readU32 s
  let (stack_trace_serial, s) ← readU32 s
  let (bytes_alive, s) ← readU32 s
  let (instances_alive, s) ← readU32 s
  let (bytes_allocated, s) ← readU32 s
  let (instances_allocated, s) ← readU32 s
  .ok ({ is_array, class_serial, stack_trace_serial, bytes_alive,
         instances_alive, bytes_allocated, instances_allocated }, s)

/-- Reads `n` alloc-site entries. -/
def readAllocSiteList : Nat → Bytes → Except Error (List AllocSite × Bytes)
  | 0, s => .ok ([], s)
  | n + 1, s => do
    let (site, s) ← readAllocSite s
    let (rest, s) ← readAllocSiteList n s
    .ok (site :: rest, s)

/-- `records.rs::read_06_alloc_sites`. -/
def read_06_alloc_sites (s : Bytes) :
    Except Error (AllocSitesRecord × Bytes) := do
  let (flags, s) ← readU16 s
  let (cutoff_ratio, s) ← readU32 s
  let (total_live_bytes, s) ← readU32 s
  let (total_live_instances, s) ← readU32 s
  let (total_bytes_allocated, s) ← readU64 s
  let (total_instances_allocated, s) ← readU64 s
  let (num_sites, s) ← readU32 s
  let (sites, s) ← readAllocSiteList num_sites s
  .ok ({ flags, cutoff_ratio, total_live_bytes, total_live_instances,
         total_bytes_allocated, total_instances_allocated, sites }, s)

/-- `records.rs::read_07_heap_summary`. -/
def read_07_heap_summary (s : Bytes) :
    Except Error (HeapSummaryRecord × Bytes) := do
  let (total_live_bytes, s) ← readU32 s
  let (total_live_instances, s) ← readU32 s
  let (total_bytes_allocated, s) ← readU64 s
  let (total_instances_allocated, s) ← readU64 s
  .ok ({ total_live_bytes, total_live_instances, total_bytes_allocated,
         total_instances_allocated }, s)

/-- `records.rs::read_0a_start_thread`. -/
def read_0a_start_thread (idr : IdReader) (s : Bytes) :
    Except Error (StartThreadRecord × Bytes) := do
  let (thread_serial, s) ← readU32 s
  let (thead_object_id, s) ← idr.read_id s
  let (stack_trace_serial, s) ← readU32 s
  let (thread_name_id, s) ← idr.read_id s
  let (thread_group_name_id, s) ← idr.read_id s
  let (thread_group_parent_name_id, s) ← idr.read_id s
  .ok ({ thread_serial, thead_object_id, stack_trace_serial, thread_name_id,
         thread_group_name_id, thread_group_parent_name_id }, s)

/-- `records.rs::read_0b_end_thread`. -/
def read_0b_end_thread (s : Bytes) :
    Except Error (EndThreadRecord × Bytes) := do
  let (thread_serial, s) ← readU32 s
  .ok ({ thread_serial }, s)

/-- The class-descriptor table `HashMap<Id, ClassDescription>`, modelled
as an association list whose `insert` prepends (lookup finds the newest
binding first, so re-insertion overwrites). -/
abbrev ClassTable := List (Id × ClassDescription)

/-- `HashMap::get`. -/
def lookupClass (t : ClassTable) (k : Id) : Option ClassDescription :=
  (t.find? fun p => p.1 = k).map (·.2)

/-- `HashMap::insert` (replaces any previous binding of the key). -/
def insertClass (t : ClassTable) (k : Id) (v : ClassDescription) : ClassTable :=
  (k, v) :: t

/-- Constant-pool table entries of `read_class_description`:
`n × {u16 pool index, u8 kind, scalar}`. -/
def readConstFields (idr : IdReader) :
    Nat → Bytes → Except Error (List (ConstFieldInfo × FieldValue) × Bytes)
  | 0, s => .ok ([], s)
  | n + 1, s => do
    let (const_pool_idx, s) ← readU16 s
    let (tyByte, s) ← readU8 s
    match FieldType.tryFrom tyByte with
    | none => .error (.invalidField "ty")
    | some const_type => do
      let (v, s) ← readTypeValue const_type idr s
      let (rest, s) ← readConstFields idr n s
      .ok (({ const_pool_idx, const_type }, v) :: rest, s)

/-- Static-field table entries: `n × {id name, u8 kind, scalar}`. -/
def readStaticFields (idr : IdReader) :
    Nat → Bytes → Except Error (List (FieldInfo × FieldValue) × Bytes)
  | 0, s => .ok ([], s)
  | n + 1, s => do
    let (name_id, s) ← idr.read_id s
    let (tyByte, s) ← readU8 s
    match FieldType.tryFrom tyByte with
    | none => .error (.invalidField "ty")
    | some field_type => do
      let (v, s) ← readTypeValue field_type idr s
      let (rest, s) ← readStaticFields idr n s
      .ok (({ name_id, field_type }, v) :: rest, s)

/-- Instance-field descriptor entries: `n × {id name, u8 kind}`. -/
def readInstanceFieldInfos (idr : IdReader) :
    Nat → Bytes → Except Error (List FieldInfo × Bytes)
  | 0, s => .ok ([], s)
  | n + 1, s => do
    let (name_id, s) ← idr.read_id s
    let (tyByte, s) ← readU8 s
    match FieldType.tryFrom tyByte with
    | none => .error (.invalidField "ty")
    | some field_type => do
      let (rest, s) ← readInstanceFieldInfos idr n s
      .ok ({ name_id, field_type } :: rest, s)

/-- `stream.rs::read_class_description` (lines 10-87): fixed header
fields, then the three length-prefixed tables, read directly from the
enclosing substream. -/
def read_class_description (idr : IdReader) (s : Bytes) :
    Except Error (ClassDescription × Bytes) := do
  let (class_id, s) ← idr.read_id s
  let (stack_trace_serial, s) ← readU32 s
  let (super_class_object_id, s) ← idr.read_id s
  let (class_loader_object_id, s) ← idr.read_id s
  let (signers_object_id, s) ← idr.read_id s
  let (protection_domain_object_id, s) ← idr.read_id s
  let (reserved1, s) ← idr.read_id s
  let (reserved2, s) ← idr.read_id s
  let (instance_size, s) ← readU32 s
  let (const_pool_size, s) ← readU16 s
  let (const_fields, s) ← readConstFields idr const_pool_size s
  let (static_field_num, s) ← readU16 s
  let (static_fields, s) ← readStaticFields idr static_field_num s
  let (instance_fields_num, s) ← readU16 s
  let (instance_fields, s) ← readInstanceFieldInfos idr instance_fields_num s
  .ok ({ class_id, stack_trace_serial, super_class_object_id,
         class_loader_object_id, signers_object_id,
         protection_domain_object_id, reserved1, reserved2, instance_size,
         const_fields, static_fields, instance_fields }, s)

/-- The field reads of one class of the hierarchy walk in
`stream.rs::read_object`: each declared instance field in order,
accumulating `(object id, class id, field info, value)` rows. -/
def readObjectFields (idr : IdReader) (oid cid : Id) :
    List FieldInfo → Bytes →
    Except Error (List (Id × Id × FieldInfo × FieldValue) × Bytes)
  | [], s => .ok ([], s)
  | fi :: rest, s => do
    let (v, s) ← readTypeValue fi.field_type idr s
    let (vs, s) ← readObjectFields idr oid cid rest s
    .ok ((oid, cid, fi, v) :: vs, s)

/-- The `while` walk of `stream.rs::read_object`: follow super-class
ids until 0, reading each class's fields; a class absent from the
table is the fatal `UnknownClass`.  The source loop is unbounded (it
diverges, or eventually exhausts its bounded substream, on a cyclic
chain); it is modelled with explicit fuel, always called with
`table length + 1`, which every acyclic walk completes within; fuel
exhaustion is mapped to the end-of-file I/O error a cyclic chain
produces on a bounded substream. -/
def readObjectLoop (idr : IdReader) (t : ClassTable) (oid : Id) :
    Nat → Id → Bytes →
    Except Error (List (Id × Id × FieldInfo × FieldValue) × Bytes)
  | 0, _, _ => .error (.underlyingIOError .unexpectedEof)
  | fuel + 1, current, s =>
    if current = 0 then .ok ([], s)
    else
      match lookupClass t current with
      | none => .error (.unknownClass current)
      | some desc => do
        let (vs, s) ← readObjectFields idr oid current desc.instance_fields s
        let (rest, s) ← readObjectLoop idr t oid fuel desc.super_class_object_id s
        .ok (vs ++ rest, s)

/-- `stream.rs::read_object` (lines 89-119): header fields, then a
take-scope of `data_size` bytes through which the class chain's fields
are read.  The take (`Take<&mut R>`) is dropped without draining, so
bytes of the scope left unread remain in the parent stream: the
returned stream is the unread scope remainder followed by the bytes
past the scope. -/
def read_object (idr : IdReader) (t : ClassTable) (s : Bytes) :
    Except Error (List (Id × Id × FieldInfo × FieldValue) × Bytes) := do
  let (object_id, s) ← idr.read_id s
  let (_stack_trace_serial, s) ← readU32 s
  let (class_object_id, s) ← idr.read_id s
  let (data_size, s) ← readU32 s
  let front := s.take data_size
  let back := s.drop data_size
  let (values, front2) ← readObjectLoop idr t object_id (t.length + 1)
      class_object_id front
  .ok (values, front2 ++ back)

/-- The field reads of one class in
`records.rs::read_data_21_instance_dump`, which records
`(field info, value)` pairs. -/
def readInstanceFields (idr : IdReader) :
    List FieldInfo → Bytes → Except Error (List (FieldInfo × FieldValue) × Bytes)
  | [], s => .ok ([], s)
  | fi :: rest, s => do
    let (v, s) ← readTypeValue fi.field_type idr s
    let (vs, s) ← readInstanceFields idr rest s
    .ok ((fi, v) :: vs, s)

/-- The hierarchy walk of `records.rs::read_data_21_instance_dump`;
fuel as in `readObjectLoop`. -/
def readInstanceLoop (idr : IdReader) (t : ClassTable) :
    Nat → Id → Bytes → Except Error (List (FieldInfo × FieldValue) × Bytes)
  | 0, _, _ => .error (.underlyingIOError .unexpectedEof)
  | fuel + 1, current, s =>
    if current = 0 then .ok ([], s)
    else
      match lookupClass t current with
      | none => .error (.unknownClass current)
      | some desc => do
        let (vs, s) ← readInstanceFields idr desc.instance_fields s
        let (rest, s) ← readInstanceLoop idr t fuel desc.super_class_object_id s
        .ok (vs ++ rest, s)

/-- `records.rs::read_data_21_instance_dump` (lines 364-402): header
fields, a take-scope of `data_size` bytes for the hierarchy walk, then
`io::copy(&mut substream, &mut io::sink())` drains whatever the walk
left unread, so on success the returned stream is exactly the bytes
past the scope. -/
def read_data_21_instance_dump (idr : IdReader) (t : ClassTable) (s : Bytes) :
    Except Error (InstanceDump × Bytes) := do
  let (object_id, s) ← idr.read_id s
  let (stack_trace_serial, s) ← readU32 s
  let (class_object_id, s) ← idr.read_id s
  let (data_size, s) ← readU32 s
  let front := s.take data_size
  let back := s.drop data_size
  let (values, _front2) ← readInstanceLoop idr t (t.length + 1)
      class_object_id front
  .ok ({ object_id, stack_trace_serial, class_object_id, data_size, values },
       back)

/-- `stream.rs::read_object_array` (lines 121-137): header fields then
`n` element identifiers, all read unconditionally. -/
def read_object_array (idr : IdReader) (s : Bytes) :
    Except Error ((Id × Id × List Id) × Bytes) := do
  let (object_id, s) ← idr.read_id s
  let (_stack_trace_serial, s) ← readU32 s
  let (num_elements, s) ← readU32 s
  let (element_class_id, s) ← idr.read_id s
  let (res, s) ← readIdList idr num_elements s
  .ok ((object_id, element_class_id, res), s)

/-- Reads `n` fixed-width scalars of `k` bytes each (the
`read_*_into` bulk reads), as big-endian bit patterns. -/
def readScalarList (k : Nat) : Nat → Bytes → Except Error (List Nat × Bytes)
  | 0, s => .ok ([], s)
  | n + 1, s => do
    let (v, s) ← readScalarBE k s
    let (rest, s) ← readScalarList k n s
    .ok (v :: rest, s)

/-- `stream.rs::read_primitive_array` (lines 139-197): header fields,
element kind byte, then the `n` elements; `Object` as element kind is
`InvalidField`. -/
def read_primitive_array (idr : IdReader) (s : Bytes) :
    Except Error ((Id × ArrayValue) × Bytes) := do
  let (object_id, s) ← idr.read_id s
  let (_stack_trace_serial, s) ← readU32 s
  let (num_elements, s) ← readU32 s
  let (tyByte, s) ← readU8 s
  match FieldType.tryFrom tyByte with
  | none => .error (.invalidField "ty")
  | some elem_type =>
    match elem_type with
    | .object => .error (.invalidField "object type in primitive array")
    | .bool => do
      let (raw, s) ← readScalarList 1 num_elements s
      .ok ((object_id, .bool (raw.map (· ≠ 0))), s)
    | .char => do
      let (raw, s) ← readScalarList 2 num_elements s
      .ok ((object_id, .char raw), s)
    | .float => do
      let (raw, s) ← readScalarList 4 num_elements s
      .ok ((object_id, .float raw), s)
    | .double => do
      let (raw, s) ← readScalarList 8 num_elements s
      .ok ((object_id, .double raw), s)
    | .byte => do
      let (raw, s) ← readScalarList 1 num_elements s
      .ok ((object_id, .byte raw), s)
    | .short => do
      let (raw, s) ← readScalarList 2 num_elements s
      .ok ((object_id, .short raw), s)
    | .int => do
      let (raw, s) ← readScalarList 4 num_elements s
      .ok ((object_id, .int raw), s)
    | .long => do
      let (raw, s) ← readScalarList 8 num_elements s
      .ok ((object_id, .long raw), s)

/-- A UTF-8 continuation byte. -/
def isCont (b : Nat) : Bool := 0x80 ≤ b && b ≤ 0xBF

/-- `std::str::from_utf8` validity (RFC 3629: no overlongs, no
surrogates, max U+10FFFF), used on the header banner. -/
def validUtf8 : Bytes → Bool
  | [] => true
  | b :: rest =>
    if b ≤ 0x7F then validUtf8 rest
    else if b ≤ 0xC1 then false
    else if b ≤ 0xDF then
      match rest with
      | c1 :: r => isCont c1 && validUtf8 r
      | [] => false
    else if b ≤ 0xEF then
      match rest with
      | c1 :: c2 :: r =>
        (if b = 0xE0 then decide (0xA0 ≤ c1 && c1 ≤ 0xBF)
         else if b = 0xED then decide (0x80 ≤ c1 && c1 ≤ 0x9F)
         else isCont c1) && isCont c2 && validUtf8 r
      | _ => false
    else if b ≤ 0xF4 then
      match rest with
      | c1 :: c2 :: c3 :: r =>
        (if b = 0xF0 then decide (0x90 ≤ c1 && c1 ≤ 0xBF)
         else if b = 0xF4 then decide (0x80 ≤ c1 && c1 ≤ 0x8F)
         else isCont c1) && isCont c2 && isCont c3 && validUtf8 r
      | _ => false
    else false

/-- The mutable fields of `stream.rs::StreamHprofReader` shared with its
iterator: banner bytes, id reader, base timestamp, the two load flags,
and the class-descriptor table. -/
structure HprofState where
  banner : Bytes
  idReader : IdReader
  timestamp : Nat
  load_primitive_arrays : Bool
  load_object_arrays : Bool
  classInfo : ClassTable
  deriving DecidableEq, Repr

/-- `StreamHprofReader::new()` with the builder options applied. -/
def newReader (order : ByteOrder) (loadPrim loadObj : Bool) : HprofState :=
  { banner := []
    idReader := { id_size := 0, order }
    timestamp := 0
    load_primitive_arrays := loadPrim
    load_object_arrays := loadObj
    classInfo := [] }

/-- Outcome of `StreamHprofReader::read_hprof`: an iterator in the
`InNormal` state over the rest of the stream, an `Error`, or the panic
the source hits by unwrapping the `None` that `split(0x00).next()`
yields on an empty stream. -/
inductive ReadHprofResult where
  | ok (hp : HprofState) (rest : Bytes)
  | err (e : Error)
  | panic
  deriving DecidableEq, Repr

def ReadHprofResult.isOk : ReadHprofResult → Bool
  | .ok _ _ => true
  | _ => false

/-- `stream.rs::StreamHprofReader::read_hprof` (lines 267-290): scan the
NUL-terminated banner via `split(0x00).next().unwrap()` (a panic when
the stream is empty and the split iterator is exhausted), require it to
be UTF-8 (`InvalidHeader` otherwise), read `id_size` with no
validation, then the two timestamp halves combined as
`(hi << 32) | lo`. -/
def read_hprof (self : HprofState) (s : Bytes) : ReadHprofResult :=
  if s.isEmpty then .panic
  else
    let banner := s.takeWhile (· ≠ 0)
    let rest := (s.dropWhile (· ≠ 0)).drop 1
    if validUtf8 banner then
      match readU32 rest with
      | .error e => .err e
      | .ok (id_size, s1) =>
        match readU32 s1 with
        | .error e => .err e
        | .ok (hi, s2) =>
          match readU32 s2 with
          | .error e => .err e
          | .ok (lo, s3) =>
            .ok { self with
                  banner
                  idReader := { self.idReader with id_size }
                  timestamp := (hi <<< 32) ||| lo } s3
    else .err (.invalidHeader "Failed to parse file banner in header")

/-- `stream.rs::IteratorState` (the `Take` of `InData` is represented by
its remaining limit; the wrapped parent stream is the machine's
stream). -/
inductive IterState where
  | eof
  | inNormal
  | inData (ts : Nat) (lim : Nat)
  deriving DecidableEq, Repr

/-- The full state of `StreamHprofIterator`: the shared reader state,
the parent stream, and the iterator state.  The source keeps the state
in an `Option` that is `take`n during a poll and always restored by
`next` before it returns; `MState` holds the between-polls value. -/
structure MState where
  hprof : HprofState
  stream : Bytes
  istate : IterState
  deriving DecidableEq, Repr

/-- Result of a poll step: the yielded item (if any), the updated reader
state, the updated parent stream, and the iterator state — `none` when
the source leaves `self.state` empty (only on subrecord decode errors;
`Iterator::next` then stores `Eof`). -/
abbrev StepResult :=
  Option (Except Error Record) × HprofState × Bytes × Option IterState

/-- Success continuation of one decoded subrecord inside a dump segment
(`stream.rs::read_data_record`, line 493): the take's limit shrinks by
the tag byte plus the bytes the decoder consumed, and the undecoded
take remainder stays in front of the parent stream. -/
def finishSub (hp : HprofState) (ts lim : Nat) (front back rem : Bytes)
    (d : DumpRecord) : StepResult :=
  (some (.ok (.dump ts d)), hp, rem ++ back,
   some (.inData ts (lim - 1 - (front.length - rem.length))))

/-- Error result of a subrecord decoder: the source's `?` operator
escapes the closure with `self.state` still empty (`none` here); the
stream is left partially consumed — the model keeps the position after
the tag byte, which no further transition observes because `next`
stores `Eof`. -/
def errSub (hp : HprofState) (s' : Bytes) (e : Error) : StepResult :=
  (some (.error e), hp, s', none)

/-- One top-level decoder dispatch arm of `stream.rs::read_record`
(the `Some(read_xx(...).and_then(|v| Ok(Record::Xx(timestamp, v))))`
pattern): on success stay `InNormal` past the consumed payload; on a
decode error yield it (the `next` wrapper then stores `Eof`). -/
def topDecode {α : Type} (hp : HprofState) (s2 : Bytes)
    (dec : Bytes → Except Error (α × Bytes)) (mk : α → Record) : StepResult :=
  match dec s2 with
  | .ok (a, s3) => (some (.ok (mk a)), hp, s3, some .inNormal)
  | .error e => (some (.error e), hp, s2, some .inNormal)

/-- One subrecord decoder dispatch arm of
`stream.rs::read_data_record`. -/
def subDecode (hp : HprofState) (ts lim : Nat) (front back s' : Bytes)
    (dec : Bytes → Except Error (DumpRecord × Bytes)) : StepResult :=
  match dec front with
  | .ok (d, rem) => finishSub hp ts lim front back rem d
  | .error e => errSub hp s' e

/-- Two consecutive identifier reads (the `RootJniGlobal` payload). -/
def readIdPair (idr : IdReader) (s : Bytes) :
    Except Error ((Id × Id) × Bytes) := do
  let (a, s) ← idr.read_id s
  let (b, s) ← idr.read_id s
  .ok ((a, b), s)

/-- An identifier then a u32 (`RootNativeStack` / `RootThreadBlock`
payloads). -/
def readIdU32 (idr : IdReader) (s : Bytes) :
    Except Error ((Id × Nat) × Bytes) := do
  let (a, s) ← idr.read_id s
  let (b, s) ← readU32 s
  .ok ((a, b), s)

/-- An identifier then two u32s (`RootJniLocal` / `RootJavaFrame` /
`RootThreadObject` payloads). -/
def readIdU32U32 (idr : IdReader) (s : Bytes) :
    Except Error ((Id × Nat × Nat) × Bytes) := do
  let (a, s) ← idr.read_id s
  let (b, s) ← readU32 s
  let (c, s) ← readU32 s
  .ok ((a, b, c), s)

/-- One poll of the two-level framing state machine: the bodies of
`stream.rs::read_record` (state `InNormal`), `read_data_record` (state
`InData`) and the `Eof` short-circuit of `next`, with the source's
mutual recursion (segment entry/exit, `HeapDumpEnd`) driven by
explicit fuel.  `next` supplies more fuel than the recursion — which
consumes at least the 9 framing bytes between any two nested calls —
can use, so the fuel-out base case is unreachable from `next`. -/
def stepAux : Nat → HprofState → Bytes → IterState → StepResult
  | 0, hp, s, _ => (none, hp, s, some .eof)
  | _ + 1, hp, s, .eof => (none, hp, s, some .eof)
  | fuel + 1, hp, s, .inNormal =>
    match tryReadU8 s with
    | none => (none, hp, s, some .eof)
    | some (.error e) => (some (.error e), hp, s, some .eof)
    | some (.ok (tag, s0)) =>
      match readU32 s0 with
      | .error e => (some (.error e), hp, s0, some .eof)
      | .ok (timestamp_delta, s1) =>
        match readU32 s1 with
        | .error e => (some (.error e), hp, s1, some .eof)
        | .ok (payload_size, s2) =>
          let id_reader := hp.idReader
          let timestamp := hp.timestamp + timestamp_delta
          if tag = TAG_STRING then
            topDecode hp s2 (read_01_string id_reader payload_size)
              (fun v => .string timestamp v.1 v.2)
          else if tag = TAG_LOAD_CLASS then
            topDecode hp s2 (read_02_load_class id_reader)
              (fun c => .loadClass timestamp c)
          else if tag = TAG_UNLOAD_CLASS then
            topDecode hp s2 read_03_unload_class
              (fun serial => .unloadClass timestamp serial)
          else if tag = TAG_STACK_FRAME then
            topDecode hp s2 (read_04_frame id_reader)
              (fun f => .stackFrame timestamp f)
          else if tag = TAG_STACK_TRACE then
            topDecode hp s2 (read_05_trace id_reader)
              (fun t => .stackTrace timestamp t)
          else if tag = TAG_ALLOC_SITES then
            topDecode hp s2 read_06_alloc_sites
              (fun a => .allocSites timestamp a)
          else if tag = TAG_HEAP_SUMMARY then
            topDecode hp s2 read_07_heap_summary
              (fun h => .heapSummary timestamp h)
          else if tag = TAG_START_THREAD then
            topDecode hp s2 (read_0a_start_thread id_reader)
              (fun st => .startThread timestamp st)
          else if tag = TAG_END_THREAD then
            topDecode hp s2 read_0b_end_thread
              (fun et => .endThread timestamp et)
          else if tag = TAG_HEAP_DUMP ∨ tag = TAG_HEAP_DUMP_SEGMENT then
            stepAux fuel hp s2 (.inData timestamp payload_size)
          else if tag = TAG_HEAP_DUMP_END then
            stepAux fuel hp s2 .inNormal
          else
            (some (.error (.unknownPacket tag payload_size)), hp, s2,
             some .inNormal)
  | fuel + 1, hp, s, .inData ts lim =>
    -- `try_read_u8` on the `Take`: `None` iff the limit is exhausted or
    -- the parent is at end of stream.
    if lim = 0 ∨ s.isEmpty then
      -- End of data segment: `into_inner` and read a top-level record.
      stepAux fuel hp s .inNormal
    else
      let tag := s.headD 0
      let s' := s.drop 1
      let front := s'.take (lim - 1)
      let back := s'.drop (lim - 1)
      let id_reader := hp.idReader
      if tag = TAG_GC_ROOT_UNKNOWN then
        subDecode hp ts lim front back s'
          (fun u => (id_reader.read_id u).map
            (fun p => (.rootUnknown p.1, p.2)))
      else if tag = TAG_GC_ROOT_JNI_GLOBAL then
        subDecode hp ts lim front back s'
          (fun u => (readIdPair id_reader u).map
            (fun p => (.rootJniGlobal p.1.1 p.1.2, p.2)))
      else if tag = TAG_GC_ROOT_JNI_LOCAL then
        subDecode hp ts lim front back s'
          (fun u => (readIdU32U32 id_reader u).map
            (fun p => (.rootJniLocal p.1.1 p.1.2.1 p.1.2.2, p.2)))
      else if tag = TAG_GC_ROOT_JAVA_FRAME then
        subDecode hp ts lim front back s'
          (fun u => (readIdU32U32 id_reader u).map
            (fun p => (.rootJavaFrame p.1.1 p.1.2.1 p.1.2.2, p.2)))
      else if tag = TAG_GC_ROOT_NATIVE_STACK then
        subDecode hp ts lim front back s'
          (fun u => (readIdU32 id_reader u).map
            (fun p => (.rootNativeStack p.1.1 p.1.2, p.2)))
      else if tag = TAG_GC_ROOT_STICKY_CLASS then
        subDecode hp ts lim front back s'
          (fun u => (id_reader.read_id u).map
            (fun p => (.rootStickyClass p.1, p.2)))
      else if tag = TAG_GC_ROOT_THREAD_BLOCK then
        subDecode hp ts lim front back s'
          (fun u => (readIdU32 id_reader u).map
            (fun p => (.rootThreadBlock p.1.1 p.1.2, p.2)))
      else if tag = TAG_GC_ROOT_MONITOR_USED then
        subDecode hp ts lim front back s'
          (fun u => (id_reader.read_id u).map
            (fun p => (.rootMonitorUsed p.1, p.2)))
      else if tag = TAG_GC_ROOT_THREAD_OBJ then
        subDecode hp ts lim front back s'
          (fun u => (readIdU32U32 id_reader u).map
            (fun p => (.rootThreadObject p.1.1 p.1.2.1 p.1.2.2, p.2)))
      else if tag = TAG_GC_CLASS_DUMP then
        match read_class_description id_reader front with
        | .ok (c, rem) =>
          finishSub
            { hp with classInfo := insertClass hp.classInfo c.class_id c }
            ts lim front back rem (.classDump c)
        | .error e => errSub hp s' e
      else if tag = TAG_GC_INSTANCE_DUMP then
        subDecode hp ts lim front back s'
          (fun u => (read_object id_reader hp.classInfo u).map
            (fun p => (.instanceDump p.1, p.2)))
      else if tag = TAG_GC_OBJ_ARRAY_DUMP then
        subDecode hp ts lim front back s'
          (fun u => (read_object_array id_reader u).map
            (fun p => (.objectArrayDump p.1.1 p.1.2.1
              (if hp.load_object_arrays then some p.1.2.2 else none), p.2)))
      else if tag = TAG_GC_PRIM_ARRAY_DUMP then
        subDecode hp ts lim front back s'
          (fun u => (read_primitive_array id_reader u).map
            (fun p => (.primitiveArrayDump p.1.1
              (if hp.load_primitive_arrays then some p.1.2 else none), p.2)))
      else
        (some (.error (.unknownSubpacket tag)), hp, s', some .eof)

/-- `Iterator::next` for `StreamHprofIterator` (lines 507-521):
dispatch on the current state, then force the state to `Eof` whenever
the yielded item is an error. -/
def next (m : MState) : Option (Except Error Record) × MState :=
  let r := stepAux (m.stream.length + 2) m.hprof m.stream m.istate
  match r.1 with
  | some (.error e) => (some (.error e), ⟨r.2.1, r.2.2.1, .eof⟩)
  | _ => (r.1, ⟨r.2.1, r.2.2.1, r.2.2.2.getD .eof⟩)

/-- `reader.rs::MemoryHprofRead::read_bytes` (lines 193-203): on a
request larger than the remaining slice the cursor is emptied
(`self.buffer = &self.buffer[..0]`) and `PrematureEOF` returned;
otherwise the slice splits at the request size. -/
def memReadBytes (size : Nat) (buffer : Bytes) : Except Error Bytes × Bytes :=
  if buffer.length < size then (.error .prematureEOF, [])
  else (.ok (buffer.take size), buffer.drop size)

/-- The byte width each field kind occupies in instance-dump data
(`Object` is an identifier of the configured width). -/
def fieldSize (idr : IdReader) : FieldType → Nat
  | .object => idr.id_size
  | .bool => 1
  | .byte => 1
  | .char => 2
  | .short => 2
  | .float => 4
  | .int => 4
  | .double => 8
  | .long => 8

/-- Total data bytes the declared instance fields of one class occupy. -/
def fieldsNeed (idr : IdReader) (l : List FieldInfo) : Nat :=
  l.foldr (fun fi acc => fieldSize idr fi.field_type + acc) 0

/-- The first class id of the super-class chain from `start` that is
absent from the table, if the pure chain walk (no data reads) reaches
one within `fuel` steps.  Every chain that reaches a missing class
without first revisiting a class does so within `table length + 1`
steps. -/
def missingInChain (t : ClassTable) : Nat → Id → Option Id
  | 0, _ => none
  | fuel + 1, current =>
    if current = 0 then none
    else
      match lookupClass t current with
      | none => some current
      | some desc => missingInChain t fuel desc.super_class_object_id

/-- Data bytes consumed by the chain walk before it stops (at id 0, at
a missing class, or at fuel exhaustion). -/
def chainNeed (idr : IdReader) (t : ClassTable) : Nat → Id → Nat
  | 0, _ => 0
  | fuel + 1, current =>
    if current = 0 then 0
    else
      match lookupClass t current with
      | none => 0
      | some desc =>
        fieldsNeed idr desc.instance_fields +
          chainNeed idr t fuel desc.super_class_object_id

/-! ## Step invariants of the iterator -/

/-- Facts every poll step guarantees relative to the pre-poll class
table `old`: a `none` result only in the terminal state, the table
only ever extended at the front, and a yielded ClassDump record
extending it by exactly that class keyed by its class id. -/
def StepInv (old : ClassTable) (r : StepResult) : Prop :=
  (r.1 = none → r.2.2.2 = some .eof) ∧
  (∃ pre, r.2.1.classInfo = pre ++ old) ∧
  (∀ ts c, r.1 = some (.ok (.dump ts (.classDump c))) →
    r.2.1.classInfo = insertClass old c.class_id c)

theorem stepInv_none (hp : HprofState) (s : Bytes) :
    StepInv hp.classInfo
      ((none : Option (Except Error Record)), hp, s, some .eof) :=
  ⟨fun _ => rfl, ⟨[], rfl⟩, fun _ _ h => nomatch h⟩

theorem stepInv_error (hp : HprofState) (e : Error) (s : Bytes)
    (ist : Option IterState) :
    StepInv hp.classInfo (some (.error e), hp, s, ist) := by
  refine ⟨fun h => ?_, ⟨[], rfl⟩, fun ts c h => ?_⟩ <;> simp at h

theorem stepInv_errSub (hp : HprofState) (s : Bytes) (e : Error) :
    StepInv hp.classInfo (errSub hp s e) :=
  stepInv_error hp e s none

theorem stepInv_ok_top (hp : HprofState) (r : Record) (s : Bytes)
    (h : ∀ ts c, r ≠ .dump ts (.classDump c)) :
    StepInv hp.classInfo (some (.ok r), hp, s, some .inNormal) := by
  refine ⟨fun hh => ?_, ⟨[], rfl⟩, fun ts c hh => ?_⟩
  · simp at hh
  · exact absurd (by simpa using hh) (h ts c)

theorem stepInv_finishSub (hp : HprofState) (ts lim : Nat)
    (front back rem : Bytes) (d : DumpRecord)
    (hc : ∀ c, d ≠ .classDump c) :
    StepInv hp.classInfo (finishSub hp ts lim front back rem d) := by
  refine ⟨fun hh => ?_, ⟨[], rfl⟩, fun ts' c hh => ?_⟩
  · simp [finishSub] at hh
  · simp only [finishSub, Option.some.injEq, Except.ok.injEq,
      Record.dump.injEq] at hh
    exact absurd hh.2 (hc c)

theorem stepInv_topDecode {α : Type} (hp : HprofState) (s2 : Bytes)
    (dec : Bytes → Except Error (α × Bytes)) (mk : α → Record)
    (h : ∀ a ts c, mk a ≠ .dump ts (.classDump c)) :
    StepInv hp.classInfo (topDecode hp s2 dec mk) := by
  unfold topDecode
  cases dec s2 with
  | error e => exact stepInv_error hp e s2 _
  | ok p =>
    obtain ⟨a, s3⟩ := p
    exact stepInv_ok_top hp (mk a) s3 (h a)

theorem stepInv_subDecode_map {α : Type} (hp : HprofState) (ts lim : Nat)
    (front back s' : Bytes) (reader : Bytes → Except Error (α × Bytes))
    (f : α × Bytes → DumpRecord × Bytes)
    (hf : ∀ p c, (f p).1 ≠ .classDump c) :
    StepInv hp.classInfo
      (subDecode hp ts lim front back s' (fun u => (reader u).map f)) := by
  unfold subDecode
  cases hq : reader front with
  | error e =>
    simp only [hq, Except.map]
    exact stepInv_errSub hp s' e
  | ok p =>
    simp only [hq, Except.map]
    rcases hfp : f p with ⟨d, rem⟩
    refine stepInv_finishSub hp ts lim front back rem d (fun c => ?_)
    have hd := hf p c
    rw [hfp] at hd
    exact hd

theorem stepInv_ite (old : ClassTable) (c : Prop) [Decidable c]
    (a b : StepResult) (ha : StepInv old a) (hb : StepInv old b) :
    StepInv old (if c then a else b) := by
  split <;> assumption

theorem stepInv_finishSub_insert (hp : HprofState) (ts lim : Nat)
    (front back rem : Bytes) (c : ClassDescription) :
    StepInv hp.classInfo
      (finishSub { hp with classInfo := insertClass hp.classInfo c.class_id c }
        ts lim front back rem (.classDump c)) := by
  refine ⟨fun hh => ?_, ⟨[(c.class_id, c)], rfl⟩, fun ts' c' hh => ?_⟩
  · simp [finishSub] at hh
  · simp only [finishSub, Option.some.injEq, Except.ok.injEq,
      Record.dump.injEq, DumpRecord.classDump.injEq] at hh
    rw [← hh.2]
    rfl

set_option maxHeartbeats 3200000 in
/-- Every poll step satisfies `StepInv` for its pre-poll table. -/
theorem stepAux_inv (fuel : Nat) :
    ∀ (hp : HprofState) (s : Bytes) (st : IterState),
      StepInv hp.classInfo (stepAux fuel hp s st) := by
  induction fuel with
  | zero => intro hp s st; exact stepInv_none hp s
  | succ n ih =>
    intro hp s st
    cases st with
    | eof => exact stepInv_none hp s
    | inNormal =>
      simp only [stepAux]
      repeat' first
        | exact stepInv_none _ _
        | exact stepInv_error _ _ _ _
        | exact ih _ _ _
        | exact stepInv_topDecode _ _ _ _ (by intro a ts c h; nomatch h)
        | apply stepInv_ite
        | split
    | inData ts lim =>
      simp only [stepAux]
      repeat' first
        | exact stepInv_none _ _
        | exact stepInv_error _ _ _ _
        | exact ih _ _ _
        | exact stepInv_errSub _ _ _
        | exact stepInv_subDecode_map _ _ _ _ _ _ _ _
            (by intro p c h; nomatch h)
        | exact stepInv_finishSub_insert _ _ _ _ _ _ _
        | apply stepInv_ite
        | split

/-- The reader state after a poll is the one the step computed. -/
theorem next_hprof_eq (m : MState) :
    (next m).2.hprof =
      (stepAux (m.stream.length + 2) m.hprof m.stream m.istate).2.1 := by
  simp only [next]
  split <;> rfl

/-- The stream after a poll is the one the step computed. -/
theorem next_stream_eq (m : MState) :
    (next m).2.stream =
      (stepAux (m.stream.length + 2) m.hprof m.stream m.istate).2.2.1 := by
  simp only [next]
  split <;> rfl

/-- Polling in the terminal state yields nothing and is a no-op. -/
theorem next_at_eof (m : MState) (h : m.istate = .eof) : next m = (none, m) := by
  obtain ⟨hp, s, st⟩ := m
  simp only at h
  subst h
  simp only [next]
  have he : stepAux (s.length + 2) hp s .eof = (none, hp, s, some .eof) := rfl
  rw [he]
  rfl

/-- A poll that yields nothing leaves the iterator terminal. -/
theorem next_none_eof (m : MState) (h : (next m).1 = none) :
    (next m).2.istate = .eof := by
  have hinv := stepAux_inv (m.stream.length + 2) m.hprof m.stream m.istate
  cases hr1 : (stepAux (m.stream.length + 2) m.hprof m.stream m.istate).1 with
  | none =>
    have hok := hinv.1 hr1
    simp [next, hr1, hok]
  | some x =>
    cases x with
    | error e => simp [next, hr1] at h
    | ok r => simp [next, hr1] at h

/-- A poll that yields an error item leaves the iterator terminal. -/
theorem next_error_eof (m : MState) (e : Error)
    (h : (next m).1 = some (.error e)) : (next m).2.istate = .eof := by
  cases hr1 : (stepAux (m.stream.length + 2) m.hprof m.stream m.istate).1 with
  | none => simp [next, hr1] at h
  | some x =>
    cases x with
    | error e' => simp only [next, hr1]
    | ok r => simp [next, hr1] at h

/-- Iterating the post-poll map fixes terminal states. -/
theorem iterate_next_fix (k : Nat) :
    ∀ m : MState, m.istate = .eof → (fun x => (next x).2)^[k] m = m := by
  induction k with
  | zero => intro m _; rfl
  | succ n ihk =>
    intro m h
    rw [Function.iterate_succ_apply]
    have hfix : (next m).2 = m := by rw [next_at_eof m h]
    rw [hfix]
    exact ihk m h

/-- The yielded item of a poll is exactly what the step computed (the
`next` wrapper only changes the stored state, never the item). -/
theorem next_fst_eq (m : MState) :
    (next m).1 =
      (stepAux (m.stream.length + 2) m.hprof m.stream m.istate).1 := by
  simp only [next]
  split
  · rename_i e heq
    exact heq.symm
  · rfl

/-- `next_fst_eq` restated on components. -/
theorem next_fst_eq_mk (hp : HprofState) (s : Bytes) (ist : IterState) :
    (next ⟨hp, s, ist⟩).1 = (stepAux (s.length + 2) hp s ist).1 :=
  next_fst_eq _

/-- A successful item out of a `topDecode` arm carries the timestamp
its maker stamps on every record. -/
theorem topDecode_ok_ts {α : Type} (hp : HprofState) (s2 : Bytes)
    (dec : Bytes → Except Error (α × Bytes)) (mk : α → Record) (T : Nat)
    (r : Record) (hts : ∀ a, (mk a).ts = T)
    (h : (topDecode hp s2 dec mk).1 = some (.ok r)) : r.ts = T := by
  unfold topDecode at h
  cases hq : dec s2 with
  | error e => rw [hq] at h; simp at h
  | ok p =>
    obtain ⟨a, s3⟩ := p
    rw [hq] at h
    have hr : mk a = r := by simpa using h
    rw [← hr]
    exact hts a

/-- A successful identifier read implies the configured width is 4 or
8 (any other width fails before touching the stream). -/
theorem read_id_ok_size (idr : IdReader) (s : Bytes) (p : Id × Bytes)
    (h : idr.read_id s = .ok p) : idr.id_size = 4 ∨ idr.id_size = 8 := by
  unfold IdReader.read_id at h
  by_cases h4 : idr.id_size = 4
  · exact Or.inl h4
  · by_cases h8 : idr.id_size = 8
    · exact Or.inr h8
    · rw [if_neg h4, if_neg h8] at h
      cases h

/-- A field-value read succeeds and consumes exactly the field's
storage width whenever that many bytes remain (and the id width is
supported, for object fields). -/
theorem readTypeValue_ok (idr : IdReader)
    (hid : idr.id_size = 4 ∨ idr.id_size = 8) (ty : FieldType) (s : Bytes)
    (h : fieldSize idr ty ≤ s.length) :
    ∃ v, readTypeValue ty idr s = .ok (v, s.drop (fieldSize idr ty)) := by
  cases ty with
  | object =>
    simp only [fieldSize] at h
    simp only [readTypeValue, IdReader.read_id, fieldSize]
    rcases hid with h4 | h8
    · rw [h4] at h ⊢
      rw [if_pos rfl]
      cases idr.order <;>
        (simp only [readN]; rw [if_pos h]; exact ⟨_, rfl⟩)
    · rw [h8] at h ⊢
      rw [if_neg (by decide), if_pos rfl]
      cases idr.order <;>
        (simp only [readN]; rw [if_pos h]; exact ⟨_, rfl⟩)
  | bool =>
    simp only [fieldSize] at h
    simp only [readTypeValue, readU8, readN, fieldSize]
    rw [if_pos h]
    exact ⟨_, rfl⟩
  | char =>
    simp only [fieldSize] at h
    simp only [readTypeValue, readU16, readN, fieldSize]
    rw [if_pos h]
    exact ⟨_, rfl⟩
  | float =>
    simp only [fieldSize] at h
    simp only [readTypeValue, readScalarBE, readN, fieldSize]
    rw [if_pos h]
    exact ⟨_, rfl⟩
  | double =>
    simp only [fieldSize] at h
    simp only [readTypeValue, readScalarBE, readN, fieldSize]
    rw [if_pos h]
    exact ⟨_, rfl⟩
  | byte =>
    simp only [fieldSize] at h
    simp only [readTypeValue, readScalarBE, readN, fieldSize]
    rw [if_pos h]
    exact ⟨_, rfl⟩
  | short =>
    simp only [fieldSize] at h
    simp only [readTypeValue, readScalarBE, readN, fieldSize]
    rw [if_pos h]
    exact ⟨_, rfl⟩
  | int =>
    simp only [fieldSize] at h
    simp only [readTypeValue, readScalarBE, readN, fieldSize]
    rw [if_pos h]
    exact ⟨_, rfl⟩
  | long =>
    simp only [fieldSize] at h
    simp only [readTypeValue, readScalarBE, readN, fieldSize]
    rw [if_pos h]
    exact ⟨_, rfl⟩

/-- The per-class field reads of `read_object` succeed and consume
exactly the declared fields' total width when that many bytes remain. -/
theorem readObjectFields_ok (idr : IdReader)
    (hid : idr.id_size = 4 ∨ idr.id_size = 8) (oid cid : Id) :
    ∀ (l : List FieldInfo) (s : Bytes), fieldsNeed idr l ≤ s.length →
      ∃ vs, readObjectFields idr oid cid l s =
        .ok (vs, s.drop (fieldsNeed idr l)) := by
  intro l
  induction l with
  | nil =>
    intro s h
    exact ⟨[], by simp [readObjectFields, fieldsNeed]⟩
  | cons fi rest ihl =>
    intro s h
    have hcons : fieldsNeed idr (fi :: rest) =
        fieldSize idr fi.field_type + fieldsNeed idr rest := rfl
    have hsz : fieldSize idr fi.field_type ≤ s.length := by omega
    obtain ⟨v, hv⟩ := readTypeValue_ok idr hid fi.field_type s hsz
    have hrest : fieldsNeed idr rest ≤
        (s.drop (fieldSize idr fi.field_type)).length := by
      rw [List.length_drop]
      omega
    obtain ⟨vs, hvs⟩ := ihl _ hrest
    refine ⟨(oid, cid, fi, v) :: vs, ?_⟩
    simp only [readObjectFields, bind, Except.bind, hv, hvs]
    rw [List.drop_drop]
    rw [hcons, Nat.add_comm]

/-- The hierarchy walk of `read_object` hits exactly the first missing
class of the chain, provided the field data before it is long enough
to read. -/
theorem readObjectLoop_missing (idr : IdReader)
    (hid : idr.id_size = 4 ∨ idr.id_size = 8) (t : ClassTable)
    (oid m : Id) :
    ∀ (fuel : Nat) (cur : Id) (s : Bytes),
      missingInChain t fuel cur = some m →
      chainNeed idr t fuel cur ≤ s.length →
      readObjectLoop idr t oid fuel cur s = .error (.unknownClass m) := by
  intro fuel
  induction fuel with
  | zero =>
    intro cur s hm hn
    simp [missingInChain] at hm
  | succ n ihf =>
    intro cur s hm hn
    by_cases hz : cur = 0
    · simp [missingInChain, hz] at hm
    · cases hlk : lookupClass t cur with
      | none =>
        have hm' : m = cur := by
          simp only [missingInChain, if_neg hz, hlk] at hm
          exact (Option.some.injEq _ _ ▸ hm).symm
        subst hm'
        simp [readObjectLoop, hz, hlk]
      | some desc =>
        have hm2 : missingInChain t n desc.super_class_object_id = some m := by
          simp only [missingInChain, if_neg hz, hlk] at hm
          exact hm
        have hneed : fieldsNeed idr desc.instance_fields +
            chainNeed idr t n desc.super_class_object_id ≤ s.length := by
          have : chainNeed idr t (n + 1) cur =
              fieldsNeed idr desc.instance_fields +
                chainNeed idr t n desc.super_class_object_id := by
            simp only [chainNeed, if_neg hz, hlk]
          omega
        obtain ⟨vs, hvs⟩ := readObjectFields_ok idr hid oid cur
          desc.instance_fields s (by omega)
        have hrec := ihf desc.super_class_object_id
          (s.drop (fieldsNeed idr desc.instance_fields)) hm2
          (by rw [List.length_drop]; omega)
        simp only [readObjectLoop, if_neg hz, hlk, bind, Except.bind, hvs,
          hrec]

/-- `find?` over an appended prefix preserves a hit in the suffix. -/
theorem find?_isSome_append {α : Type} (p : α → Bool) (l1 l2 : List α)
    (h : (l2.find? p).isSome = true) :
    ((l1 ++ l2).find? p).isSome = true := by
  induction l1 with
  | nil => exact h
  | cons a t ihl =>
    cases hpa : p a with
    | false =>
      rw [List.cons_append, List.find?_cons_of_neg _ (by simp [hpa])]
      exact ihl
    | true =>
      rw [List.cons_append, List.find?_cons_of_pos _ hpa]
      rfl

end Hprof

namespace Hprof

/-! ## Claims -/

/-- C9: for every source, try_read_u8 and try_read_u16 report
end-of-stream (`none`) exactly when zero bytes remain; a partially
readable value is an I/O error, never end-of-stream, so a short read
mid-record is distinguishable from graceful termination. -/
theorem c9_try_read_eof_exactly_empty (s : Bytes) :
    (tryReadU8 s = none ↔ s = []) ∧
    (tryReadU16 s = none ↔ s = []) ∧
    (s ≠ [] → s.length < 2 →
      tryReadU16 s = some (.error (.underlyingIOError .unexpectedEof))) ∧
    (s ≠ [] → tryReadU8 s = some (.ok (s.headD 0, s.drop 1))) := by
  refine ⟨?_, ?_, ?_, ?_⟩
  · cases s <;> simp [tryReadU8, tryReadExact]
  · cases s with
    | nil => simp [tryReadU16, tryReadExact]
    | cons a l =>
      simp only [tryReadU16, tryReadExact, Except.map]
      constructor
      · intro h
        by_cases hl : 1 ≤ l.length <;> simp [hl] at h
      · intro h
        exact absurd h (by simp)
  · intro h1 h2
    cases s with
    | nil => exact absurd rfl h1
    | cons a l =>
      have hl : l = [] := by
        cases l with
        | nil => rfl
        | cons b l2 => simp at h2; omega
      subst hl
      simp [tryReadU16, tryReadExact, Except.map]
  · intro h1
    cases s with
    | nil => exact absurd rfl h1
    | cons a l => simp [tryReadU8, tryReadExact, Except.map, beVal]

/-- C9 witness: on the one-byte stream `[10]` try_read_u16 is a short
read (I/O error), and try_read_u8 succeeds; on `[]` both report
end-of-stream. -/
theorem c9_try_read_eof_exactly_empty_witness :
    tryReadU16 [10] = some (.error (.underlyingIOError .unexpectedEof)) ∧
    tryReadU8 [10] = some (.ok (10, [])) ∧
    tryReadU8 [] = none ∧ tryReadU16 [] = none := by
  refine ⟨(c9_try_read_eof_exactly_empty [10]).2.2.1 (by decide) (by decide),
          ?_, ?_, ?_⟩
  · have := (c9_try_read_eof_exactly_empty [10]).2.2.2 (by decide)
    simpa using this
  · exact (c9_try_read_eof_exactly_empty []).1.mpr rfl
  · exact (c9_try_read_eof_exactly_empty []).2.1.mpr rfl

/-- C10: `MemoryHprofRead::read_bytes` on a request longer than the
remaining slice returns `PrematureEOF` and empties the cursor, so every
subsequent try_read_u8 on that source reports end-of-stream. -/
theorem c10_mem_read_bytes_eof_empties (buffer : Bytes) (size : Nat)
    (h : buffer.length < size) :
    memReadBytes size buffer = (.error .prematureEOF, []) ∧
    tryReadU8 (memReadBytes size buffer).2 = none := by
  constructor
  · simp [memReadBytes, h]
  · simp [memReadBytes, h, tryReadU8, tryReadExact]

/-- C10 witness: the test scenario `test_memory_string_eof` — a 2-byte
slice asked for 3 bytes errors and then reads as end-of-stream. -/
theorem c10_mem_read_bytes_eof_empties_witness :
    memReadBytes 3 [1, 0] = (.error .prematureEOF, []) ∧
    tryReadU8 (memReadBytes 3 [1, 0]).2 = none :=
  c10_mem_read_bytes_eof_empties [1, 0] 3 (by decide)

/-- A header whose id_size field is 2: banner `"J"`, id_size 2, zero
timestamp. -/
def c2input : Bytes := [0x4A, 0, 0, 0, 0, 2, 0, 0, 0, 0, 0, 0, 0, 0]

/-- C2 counterexample: the claim says an input with id_size = 2 makes
the parse fail with IdSizeNotSupported(2); in fact `read_hprof`
performs no id_size validation and succeeds on such an input. -/
theorem c2_counterexample_header_id_size_2_parses :
    (read_hprof (newReader .network true true) c2input).isOk = true := by
  decide

/-- C2 (amended): header parsing does not validate id_size; instead
every identifier read through an `IdReader` whose size is neither 4 nor
8 fails with `InvalidHeader("Id size not supported")` (the
`IdSizeNotSupported` variant is never produced). -/
theorem c2_unsupported_id_size_read_id_fails (idr : IdReader)
    (h4 : idr.id_size ≠ 4) (h8 : idr.id_size ≠ 8) (s : Bytes) :
    idr.read_id s = .error (.invalidHeader "Id size not supported") := by
  simp [IdReader.read_id, h4, h8]

/-- C2 witness: an id reader of size 2 fails on any bytes with the
`InvalidHeader` error. -/
theorem c2_unsupported_id_size_read_id_fails_witness :
    IdReader.read_id ⟨2, .network⟩ [0, 0] =
      .error (.invalidHeader "Id size not supported") :=
  c2_unsupported_id_size_read_id_fails ⟨2, .network⟩ (by decide) (by decide)
    [0, 0]

/-- C4: on the empty input, `read_hprof` does not return
`InvalidHeader`: `split(0x00).next()` yields `None` and the source
`unwrap`s it, so iterator construction panics (terminates abnormally). -/
theorem c4_empty_input_panics :
    read_hprof (newReader .network true true) [] = .panic := rfl

/-- A class with one Int instance field and no super class. -/
def c1desc : ClassDescription :=
  { class_id := 7
    stack_trace_serial := 1
    super_class_object_id := 0
    class_loader_object_id := 0
    signers_object_id := 0
    protection_domain_object_id := 0
    reserved1 := 0
    reserved2 := 0
    instance_size := 4
    const_fields := []
    static_fields := []
    instance_fields := [⟨100, .int⟩] }

/-- A table holding only `c1desc` under its class id. -/
def c1tab : ClassTable := [(7, c1desc)]

/-- An InstanceDump body: object 9, serial 1, class 7, data_size 8, then
8 data bytes (an Int value 5 plus four padding bytes) and one trailing
byte 0xEE that lies past the declared data. -/
def c1input : Bytes :=
  [0, 0, 0, 9, 0, 0, 0, 1, 0, 0, 0, 7, 0, 0, 0, 8,
   0, 0, 0, 5, 0xAA, 0xBB, 0xCC, 0xDD, 0xEE]

/-- C1 counterexample: decoding this InstanceDump through the
iterator's `stream.rs::read_object` succeeds but leaves the stream only
4 bytes past the data_size field — the four declared-but-unread data
bytes 0xAA..0xDD are still in front of the trailing byte — whereas the
claim requires the position to be exactly data_size = 8 bytes past the
field (remainder `(c1input.drop 16).drop 8 = [0xEE]`). -/
theorem c1_counterexample_read_object_leaves_take_bytes :
    read_object ⟨4, .network⟩ c1tab c1input =
      .ok ([(9, 7, ⟨100, .int⟩, .int 5)], [0xAA, 0xBB, 0xCC, 0xDD, 0xEE]) ∧
    ([0xAA, 0xBB, 0xCC, 0xDD, 0xEE] : Bytes) ≠ (c1input.drop 16).drop 8 := by
  constructor
  · rfl
  · decide

/-- C1 (amended): the exact-consumption property holds of
`records.rs::read_data_21_instance_dump`, which drains its take-scope:
whenever the stream holds at least data_size bytes past the data_size
field and the record decodes successfully, the returned stream is
positioned exactly data_size bytes past that field.  (The iterator's
`stream.rs::read_object` does not drain the scope and consumes only
the walked fields' bytes.) -/
theorem c1_instance_dump_consumes_data_size (idr : IdReader) (t : ClassTable)
    (s s1 s2 s3 s4 rest : Bytes) (oid sts cid dsz : Nat) (rec : InstanceDump)
    (h1 : idr.read_id s = .ok (oid, s1))
    (h2 : readU32 s1 = .ok (sts, s2))
    (h3 : idr.read_id s2 = .ok (cid, s3))
    (h4 : readU32 s3 = .ok (dsz, s4))
    (h5 : dsz ≤ s4.length)
    (h6 : read_data_21_instance_dump idr t s = .ok (rec, rest)) :
    rest = s4.drop dsz ∧ s4.length - rest.length = dsz ∧
      rec.data_size = dsz := by
  simp only [read_data_21_instance_dump, bind, Except.bind, h1, h2, h3, h4]
    at h6
  cases hloop : readInstanceLoop idr t (t.length + 1) cid (s4.take dsz) with
  | error e => rw [hloop] at h6; cases h6
  | ok p =>
    rw [hloop] at h6
    obtain ⟨values, front2⟩ := p
    simp only [Except.ok.injEq, Prod.mk.injEq] at h6
    obtain ⟨hrec, hrest⟩ := h6
    refine ⟨hrest.symm, ?_, ?_⟩
    · rw [← hrest]
      simp [List.length_drop]
      omega
    · rw [← hrec]

/-- C1 witness: a concrete instance dump of class id 0 (empty chain)
with data_size 2 over a 3-byte tail: decoding consumes exactly 2
bytes. -/
theorem c1_instance_dump_consumes_data_size_witness :
    ([0xCC] : Bytes) = ([0xAA, 0xBB, 0xCC] : Bytes).drop 2 ∧
    ([0xAA, 0xBB, 0xCC] : Bytes).length - ([0xCC] : Bytes).length = 2 ∧
    (InstanceDump.mk 9 1 0 2 []).data_size = 2 :=
  c1_instance_dump_consumes_data_size ⟨4, .network⟩ []
    [0, 0, 0, 9, 0, 0, 0, 1, 0, 0, 0, 0, 0, 0, 0, 2, 0xAA, 0xBB, 0xCC]
    [0, 0, 0, 1, 0, 0, 0, 0, 0, 0, 0, 2, 0xAA, 0xBB, 0xCC]
    [0, 0, 0, 0, 0, 0, 0, 2, 0xAA, 0xBB, 0xCC]
    [0, 0, 0, 2, 0xAA, 0xBB, 0xCC]
    [0xAA, 0xBB, 0xCC] [0xCC] 9 1 0 2 (InstanceDump.mk 9 1 0 2 [])
    (by rfl) (by rfl) (by rfl) (by rfl) (by decide) (by rfl)

/-- C3: the iterator is fused — once a poll has reached the End state,
whether by yielding nothing at graceful end-of-stream or by yielding
any error item, every subsequent poll yields nothing. -/
theorem c3_fused_iterator (m : MState)
    (h : (next m).1 = none ∨ ∃ e, (next m).1 = some (.error e)) :
    ∀ k, (next ((fun x => (next x).2)^[k] (next m).2)).1 = none := by
  have heof : (next m).2.istate = .eof := by
    rcases h with h | ⟨e, h⟩
    · exact next_none_eof m h
    · exact next_error_eof m e h
  intro k
  rw [iterate_next_fix k (next m).2 heof, next_at_eof (next m).2 heof]

/-- C3 witness: over the empty stream the first poll yields nothing;
the poll after it yields nothing as well. -/
theorem c3_fused_iterator_witness :
    (next (next ⟨newReader .network true true, [], .inNormal⟩).2).1 = none := by
  have h := c3_fused_iterator ⟨newReader .network true true, [], .inNormal⟩
    (Or.inl rfl) 0
  simpa using h

/-- C8: a poll that yields a decoded ClassDump has already inserted it
into the class-descriptor table keyed by its class id (re-declaring an
existing id shadows, i.e. replaces, the prior entry), and no poll ever
removes a table entry. -/
theorem c8_class_table_insert_monotone (m : MState) :
    (∀ ts c, (next m).1 = some (.ok (.dump ts (.classDump c))) →
      (next m).2.hprof.classInfo = insertClass m.hprof.classInfo
        c.class_id c) ∧
    (∀ k, (lookupClass m.hprof.classInfo k).isSome = true →
      (lookupClass (next m).2.hprof.classInfo k).isSome = true) := by
  constructor
  · intro ts c h
    cases hr1 : (stepAux (m.stream.length + 2) m.hprof m.stream m.istate).1
      with
    | none => rw [next_fst_eq, hr1] at h; cases h
    | some x =>
      cases x with
      | error e =>
        rw [next_fst_eq, hr1] at h
        simp at h
      | ok rec =>
        have hh : rec = .dump ts (.classDump c) := by
          rw [next_fst_eq, hr1] at h
          simpa using h
        rw [next_hprof_eq m]
        exact (stepAux_inv (m.stream.length + 2) m.hprof m.stream
          m.istate).2.2 ts c (by rw [hr1, hh])
  · intro k hk
    obtain ⟨pre, hpre⟩ :=
      (stepAux_inv (m.stream.length + 2) m.hprof m.stream m.istate).2.1
    rw [next_hprof_eq m, hpre]
    have hk' : ((m.hprof.classInfo.find? fun p => p.1 = k).isSome) = true := by
      unfold lookupClass at hk
      cases hfind : (m.hprof.classInfo.find? fun p => p.1 = k) with
      | none => rw [hfind] at hk; simp at hk
      | some v => simp
    have happ := find?_isSome_append (fun p => p.1 = k) pre
      m.hprof.classInfo hk'
    unfold lookupClass
    cases hfind2 : ((pre ++ m.hprof.classInfo).find? fun p => p.1 = k) with
    | none => rw [hfind2] at happ; simp at happ
    | some v => simp

/-- The class with one Int instance field used by the C8 witness. -/
def c8desc : ClassDescription :=
  { class_id := 7
    stack_trace_serial := 1
    super_class_object_id := 0
    class_loader_object_id := 0
    signers_object_id := 0
    protection_domain_object_id := 0
    reserved1 := 0
    reserved2 := 0
    instance_size := 4
    const_fields := []
    static_fields := []
    instance_fields := [⟨100, .int⟩] }

/-- The reader state of the C8 witness (4-byte ids, empty table). -/
def c8hp : HprofState :=
  { banner := []
    idReader := ⟨4, .network⟩
    timestamp := 100
    load_primitive_arrays := true
    load_object_arrays := true
    classInfo := [] }

/-- The wire bytes of the `c8desc` ClassDump subrecord. -/
def c8cd : Bytes :=
  [0, 0, 0, 7, 0, 0, 0, 1, 0, 0, 0, 0, 0, 0, 0, 0, 0, 0, 0, 0, 0, 0, 0, 0,
   0, 0, 0, 0, 0, 0, 0, 0, 0, 0, 0, 4, 0, 0, 0, 0, 0, 1, 0, 0, 0, 100, 10]

/-- Mid-segment state about to decode the `c8cd` ClassDump. -/
def c8m : MState := ⟨c8hp, 0x20 :: c8cd, .inData 100 48⟩

/-- A state whose table already holds class 5. -/
def c8m2 : MState := ⟨{ c8hp with classInfo := [(5, c8desc)] }, [], .inNormal⟩

/-- C8 witness: decoding the concrete ClassDump inserts class 7, and a
poll over a table holding class 5 keeps class 5 present. -/
theorem c8_class_table_insert_monotone_witness :
    (next c8m).2.hprof.classInfo =
      insertClass c8hp.classInfo c8desc.class_id c8desc ∧
    (lookupClass (next c8m2).2.hprof.classInfo 5).isSome = true :=
  ⟨(c8_class_table_insert_monotone c8m).1 100 c8desc (by rfl),
   (c8_class_table_insert_monotone c8m2).2 5 (by rfl)⟩

/-- C5: a top-level tag outside the recognized set
{0x01..0x07, 0x0A, 0x0B, 0x0C, 0x1C, 0x2C} makes the poll yield
`UnknownPacket(tag, payload_size)`, leaves the stream right past the
9 framing bytes (the payload is not skipped or consumed), and the next
poll yields nothing. -/
theorem c5_unknown_packet_terminal (hp : HprofState) (s s0 s1 s2 : Bytes)
    (tag delta size : Nat)
    (ht : tryReadU8 s = some (.ok (tag, s0)))
    (hd : readU32 s0 = .ok (delta, s1))
    (hz : readU32 s1 = .ok (size, s2))
    (hn : tag ∉ ([0x01, 0x02, 0x03, 0x04, 0x05, 0x06, 0x07, 0x0A, 0x0B,
                  0x0C, 0x1C, 0x2C] : List Nat)) :
    (next ⟨hp, s, .inNormal⟩).1 = some (.error (.unknownPacket tag size)) ∧
    (next ⟨hp, s, .inNormal⟩).2.stream = s2 ∧
    (next (next ⟨hp, s, .inNormal⟩).2).1 = none := by
  simp only [List.mem_cons, List.not_mem_nil, or_false, not_or] at hn
  obtain ⟨n1, n2, n3, n4, n5, n6, n7, n8, n9, n10, n11, n12⟩ := hn
  have hstep : stepAux (s.length + 2) hp s .inNormal =
      (some (.error (.unknownPacket tag size)), hp, s2, some .inNormal) := by
    obtain ⟨k, hk⟩ : ∃ k, s.length + 2 = k + 1 := ⟨s.length + 1, rfl⟩
    rw [hk]
    simp only [stepAux, ht, hd, hz, TAG_STRING, TAG_LOAD_CLASS,
      TAG_UNLOAD_CLASS, TAG_STACK_FRAME, TAG_STACK_TRACE, TAG_ALLOC_SITES,
      TAG_HEAP_SUMMARY, TAG_START_THREAD, TAG_END_THREAD, TAG_HEAP_DUMP,
      TAG_HEAP_DUMP_SEGMENT, TAG_HEAP_DUMP_END, n1, n2, n3, n4, n5, n6, n7,
      n8, n9, n10, n11, n12, if_false, or_self]
  have hw : next ⟨hp, s, .inNormal⟩ =
      (some (.error (.unknownPacket tag size)), ⟨hp, s2, .eof⟩) := by
    simp only [next]
    rw [hstep]
  refine ⟨by rw [hw], by rw [hw], ?_⟩
  rw [hw]
  rw [next_at_eof ⟨hp, s2, .eof⟩ rfl]

/-- C5 witness: tag 0x99 with a 3-byte unconsumed payload. -/
theorem c5_unknown_packet_terminal_witness :
    (next ⟨c8hp, [0x99, 0, 0, 0, 0, 0, 0, 0, 7, 1, 2, 3], .inNormal⟩).1 =
      some (.error (.unknownPacket 0x99 7)) ∧
    (next ⟨c8hp, [0x99, 0, 0, 0, 0, 0, 0, 0, 7, 1, 2, 3],
       .inNormal⟩).2.stream = [1, 2, 3] ∧
    (next (next ⟨c8hp, [0x99, 0, 0, 0, 0, 0, 0, 0, 7, 1, 2, 3],
       .inNormal⟩).2).1 = none :=
  c5_unknown_packet_terminal c8hp
    [0x99, 0, 0, 0, 0, 0, 0, 0, 7, 1, 2, 3]
    [0, 0, 0, 0, 0, 0, 0, 7, 1, 2, 3] [0, 0, 0, 7, 1, 2, 3] [1, 2, 3]
    0x99 0 7 (by rfl) (by rfl) (by rfl) (by decide)

/-- C7: the base timestamp exposed after header parsing is
`(hi <<< 32) ||| lo` of the header's two timestamp words, and every
top-level (non-dump) record the iterator yields carries the absolute
timestamp base plus the record's 4-byte delta. -/
theorem c7_timestamps :
    (∀ (self hp : HprofState) (s s1 s2 s3 rest : Bytes) (idsz hi lo : Nat),
      read_hprof self s = .ok hp rest →
      readU32 ((s.dropWhile (· ≠ 0)).drop 1) = .ok (idsz, s1) →
      readU32 s1 = .ok (hi, s2) →
      readU32 s2 = .ok (lo, s3) →
      hp.timestamp = (hi <<< 32) ||| lo) ∧
    (∀ (hp : HprofState) (s s0 s1 s2 : Bytes) (tag delta size : Nat)
       (r : Record),
      tryReadU8 s = some (.ok (tag, s0)) →
      readU32 s0 = .ok (delta, s1) →
      readU32 s1 = .ok (size, s2) →
      tag ∈ ([0x01, 0x02, 0x03, 0x04, 0x05, 0x06, 0x07, 0x0A, 0x0B] :
        List Nat) →
      (next ⟨hp, s, .inNormal⟩).1 = some (.ok r) →
      r.ts = hp.timestamp + delta) := by
  constructor
  · intro self hp s s1 s2 s3 rest idsz hi lo hok h1 h2 h3
    by_cases hs : s.isEmpty
    · simp only [read_hprof, if_pos hs] at hok
      cases hok
    · simp only [read_hprof, if_neg hs] at hok
      by_cases hu : validUtf8 (s.takeWhile (· ≠ 0)) = true
      · rw [if_pos hu] at hok
        simp only [h1, h2, h3] at hok
        simp only [ReadHprofResult.ok.injEq] at hok
        rw [← hok.1]
      · rw [if_neg hu] at hok
        cases hok
  · intro hp s s0 s1 s2 tag delta size r ht hd hz htag hr
    obtain ⟨k, hk⟩ : ∃ k, s.length + 2 = k + 1 := ⟨s.length + 1, rfl⟩
    simp only [List.mem_cons, List.not_mem_nil, or_false] at htag
    rw [next_fst_eq_mk] at hr
    rcases htag with h | h | h | h | h | h | h | h | h <;> subst h <;>
      rw [hk] at hr <;> simp only [stepAux, ht, hd, hz] at hr
    · rw [if_pos (by decide)] at hr
      refine topDecode_ok_ts _ _ _ _ _ r (fun a => ?_) hr
      rfl
    · rw [if_neg (by decide), if_pos (by decide)] at hr
      refine topDecode_ok_ts _ _ _ _ _ r (fun a => ?_) hr
      rfl
    · rw [if_neg (by decide), if_neg (by decide), if_pos (by decide)] at hr
      refine topDecode_ok_ts _ _ _ _ _ r (fun a => ?_) hr
      rfl
    · rw [if_neg (by decide), if_neg (by decide), if_neg (by decide),
        if_pos (by decide)] at hr
      refine topDecode_ok_ts _ _ _ _ _ r (fun a => ?_) hr
      rfl
    · rw [if_neg (by decide), if_neg (by decide), if_neg (by decide),
        if_neg (by decide), if_pos (by decide)] at hr
      refine topDecode_ok_ts _ _ _ _ _ r (fun a => ?_) hr
      rfl
    · rw [if_neg (by decide), if_neg (by decide), if_neg (by decide),
        if_neg (by decide), if_neg (by decide), if_pos (by decide)] at hr
      refine topDecode_ok_ts _ _ _ _ _ r (fun a => ?_) hr
      rfl
    · rw [if_neg (by decide), if_neg (by decide), if_neg (by decide),
        if_neg (by decide), if_neg (by decide), if_neg (by decide),
        if_pos (by decide)] at hr
      refine topDecode_ok_ts _ _ _ _ _ r (fun a => ?_) hr
      rfl
    · rw [if_neg (by decide), if_neg (by decide), if_neg (by decide),
        if_neg (by decide), if_neg (by decide), if_neg (by decide),
        if_neg (by decide), if_pos (by decide)] at hr
      refine topDecode_ok_ts _ _ _ _ _ r (fun a => ?_) hr
      rfl
    · rw [if_neg (by decide), if_neg (by decide), if_neg (by decide),
        if_neg (by decide), if_neg (by decide), if_neg (by decide),
        if_neg (by decide), if_neg (by decide), if_pos (by decide)] at hr
      refine topDecode_ok_ts _ _ _ _ _ r (fun a => ?_) hr
      rfl

/-- The minimal header of the C7 witness: banner `"J"`, id_size 4,
timestamp halves 1 and 2. -/
def c7hdr : Bytes := [0x4A, 0, 0, 0, 0, 4, 0, 0, 0, 1, 0, 0, 0, 2]

/-- The reader state `read_hprof` produces from `c7hdr`. -/
def c7hp : HprofState :=
  { banner := [0x4A]
    idReader := ⟨4, .network⟩
    timestamp := (1 <<< 32) ||| 2
    load_primitive_arrays := true
    load_object_arrays := true
    classInfo := [] }

/-- C7 witness: the concrete header yields base `(1 <<< 32) ||| 2`, and
a concrete String record polled at base 100 with delta 0 carries
timestamp 100. -/
theorem c7_timestamps_witness :
    c7hp.timestamp = (1 <<< 32) ||| 2 ∧
    (Record.string 100 0x42 [104, 101, 108, 108, 111]).ts =
      c8hp.timestamp + 0 :=
  ⟨c7_timestamps.1 (newReader .network true true) c7hp c7hdr
      [0, 0, 0, 1, 0, 0, 0, 2] [0, 0, 0, 2] [] [] 4 1 2
      (by rfl) (by rfl) (by rfl) (by rfl),
   c7_timestamps.2 c8hp
      [1, 0, 0, 0, 0, 0, 0, 0, 9, 0, 0, 0, 0x42, 104, 101, 108, 108, 111]
      [0, 0, 0, 0, 0, 0, 0, 9, 0, 0, 0, 0x42, 104, 101, 108, 108, 111]
      [0, 0, 0, 9, 0, 0, 0, 0x42, 104, 101, 108, 108, 111]
      [0, 0, 0, 0x42, 104, 101, 108, 108, 111]
      1 0 9 (Record.string 100 0x42 [104, 101, 108, 108, 111])
      (by rfl) (by rfl) (by rfl) (by decide) (by rfl)⟩

/-- C6: an InstanceDump whose class chain reaches a class id never
inserted by a ClassDump fails with `UnknownClass` carrying that id:
`read_object` returns the error, the iterator poll that decodes the
subrecord yields it, and the following poll yields nothing. -/
theorem c6_unknown_class_terminal (hp : HprofState) (ts lim : Nat)
    (srest s1 s2 s3 s4 : Bytes) (oid sts cid dsz : Nat) (mid : Id)
    (h1 : hp.idReader.read_id (srest.take (lim - 1)) = .ok (oid, s1))
    (h2 : readU32 s1 = .ok (sts, s2))
    (h3 : hp.idReader.read_id s2 = .ok (cid, s3))
    (h4 : readU32 s3 = .ok (dsz, s4))
    (hm : missingInChain hp.classInfo (hp.classInfo.length + 1) cid =
      some mid)
    (hn : chainNeed hp.idReader hp.classInfo (hp.classInfo.length + 1) cid ≤
      (s4.take dsz).length)
    (hlim : lim ≠ 0) :
    read_object hp.idReader hp.classInfo (srest.take (lim - 1)) =
      .error (.unknownClass mid) ∧
    (next ⟨hp, 0x21 :: srest, .inData ts lim⟩).1 =
      some (.error (.unknownClass mid)) ∧
    (next (next ⟨hp, 0x21 :: srest, .inData ts lim⟩).2).1 = none := by
  have hid := read_id_ok_size _ _ _ h1
  have hloop := readObjectLoop_missing hp.idReader hid hp.classInfo oid mid
    (hp.classInfo.length + 1) cid (s4.take dsz) hm hn
  have hro : read_object hp.idReader hp.classInfo (srest.take (lim - 1)) =
      .error (.unknownClass mid) := by
    simp only [read_object, bind, Except.bind, h1, h2, h3, h4, hloop]
  refine ⟨hro, ?_⟩
  have hstep : stepAux ((0x21 :: srest).length + 2) hp (0x21 :: srest)
      (.inData ts lim) =
      (some (.error (.unknownClass mid)), hp, srest, none) := by
    obtain ⟨k, hk⟩ : ∃ k, (0x21 :: srest).length + 2 = k + 1 :=
      ⟨(0x21 :: srest).length + 1, rfl⟩
    rw [hk]
    simp only [stepAux]
    rw [if_neg (by simp [hlim])]
    simp only [List.headD_cons, List.drop_one, List.tail_cons]
    rw [if_neg (by decide), if_neg (by decide), if_neg (by decide),
      if_neg (by decide), if_neg (by decide), if_neg (by decide),
      if_neg (by decide), if_neg (by decide), if_neg (by decide),
      if_neg (by decide), if_pos (by decide)]
    simp only [subDecode, hro, Except.map]
    rfl
  have hw : next ⟨hp, 0x21 :: srest, .inData ts lim⟩ =
      (some (.error (.unknownClass mid)), ⟨hp, srest, .eof⟩) := by
    simp only [next]
    rw [hstep]
  refine ⟨by rw [hw], ?_⟩
  rw [hw, next_at_eof ⟨hp, srest, .eof⟩ rfl]

/-- C6 witness: the spec's scenario 4 — an InstanceDump referencing
class 42 over an empty table yields `UnknownClass(42)` and then
nothing. -/
theorem c6_unknown_class_terminal_witness :
    read_object c8hp.idReader c8hp.classInfo
      (([0, 0, 0, 9, 0, 0, 0, 1, 0, 0, 0, 42, 0, 0, 0, 0] : Bytes).take 16) =
      .error (.unknownClass 42) ∧
    (next ⟨c8hp, 0x21 :: [0, 0, 0, 9, 0, 0, 0, 1, 0, 0, 0, 42, 0, 0, 0, 0],
       .inData 7 17⟩).1 = some (.error (.unknownClass 42)) ∧
    (next (next ⟨c8hp,
       0x21 :: [0, 0, 0, 9, 0, 0, 0, 1, 0, 0, 0, 42, 0, 0, 0, 0],
       .inData 7 17⟩).2).1 = none :=
  c6_unknown_class_terminal c8hp 7 17
    [0, 0, 0, 9, 0, 0, 0, 1, 0, 0, 0, 42, 0, 0, 0, 0]
    [0, 0, 0, 1, 0, 0, 0, 42, 0, 0, 0, 0]
    [0, 0, 0, 42, 0, 0, 0, 0] [0, 0, 0, 0] []
    9 1 42 0 42
    (by rfl) (by rfl) (by rfl) (by rfl) (by decide) (by decide) (by decide)

end Hprof
